import Mathlib

/-!
Verification development for the km-wrappers repository.

The definitions below are a shallow embedding of the Rust sources:
- `crates/km-shared/src/ntstatus.rs` (NtStatus, Severity, NtStatusError),
- `crates/km-shared/src/ioctl.rs` (IoControlCode, IoCtlTransferType, IoCtlAccess),
- `crates/km/src/wdf/object.rs` (WdfObjectReference, OwnedWdfObject),
- `crates/km/src/wdf/request.rs` (Request, InputBuffer, OutputBuffer, handle_ioctl).

Machine integers are modelled as `Nat` carrying the unsigned bit pattern, with
explicit `% 2 ^ w` where the Rust code wraps or truncates. Stateful code is
modelled by explicit state passing; calls into the foreign WDF runtime are
recorded in an explicit trace. Rust panics and `unreachable!()` arms are
modelled by `Option`/`none`.
-/

set_option maxRecDepth 8192

namespace Km

/-! ### NTSTATUS model (crates/km-shared/src/ntstatus.rs) -/

/-- Model of the `Severity` enum: a two-bit classification of an NTSTATUS value. -/
inductive Severity where
  | Success
  | Information
  | Warning
  | Error
deriving DecidableEq

/-- Numeric value of a severity tag (the Rust `repr(u8)` discriminants 0b00..0b11). -/
def Severity.toRaw : Severity → Nat
  | .Success => 0
  | .Information => 1
  | .Warning => 2
  | .Error => 3

/-- Model of `NtStatus(pub NTSTATUS)`: the 32-bit status stored as its unsigned
bit pattern (the Rust code stores an `i32` and immediately casts to `u32` in
every field accessor). -/
structure NtStatus where
  val : Nat
deriving DecidableEq

/-- Signed `i32` reinterpretation of an unsigned 32-bit pattern, used where the
Rust code works with the raw `i32` (`NonZeroI32::new(self.0)`). -/
def toI32 (v : Nat) : Int :=
  if v < 2 ^ 31 then (v : Int) else (v : Int) - 2 ^ 32

/-- Model of `NtStatus::from_u32`: a plain bit reinterpretation. The `% 2 ^ 32`
expresses that the argument is a `u32`. -/
def NtStatus.from_u32 (v : Nat) : NtStatus := ⟨v % 2 ^ 32⟩

/-- Model of `NtStatus::new(custom, severity, facility, code)`. The `none`
case models the `assert!(facility <= 0x1FFF)` panic. Arguments `facility` and
`code` are `u16` in Rust; theorems carry the corresponding `< 2 ^ 16` bounds. -/
def NtStatus.new (custom : Bool) (severity : Severity) (facility : Nat) (code : Nat) :
    Option NtStatus :=
  if 0x1FFF < facility then none
  else
    some ⟨(severity.toRaw <<< 30) ||| (custom.toNat <<< 29) ||| (facility <<< 16) ||| code⟩

/-- Model of `NtStatus::severity`: dispatch on `(self.0 as u32) >> 30`. The Rust
match lists `0b11 => Error` and an `unreachable!()` catch-all; for a 32-bit
value the shifted tag is at most 3, so the catch-all below is reached exactly
for tag 3, i.e. `Error`. -/
def NtStatus.severity (s : NtStatus) : Severity :=
  match s.val >>> 30 with
  | 0 => Severity.Success
  | 1 => Severity.Information
  | 2 => Severity.Warning
  | _ => Severity.Error

/-- Model of `NtStatus::custom`: `(self.0 as u32) & (1 << 29) != 0`. -/
def NtStatus.custom (s : NtStatus) : Bool :=
  decide (s.val &&& (1 <<< 29) ≠ 0)

/-- Model of `NtStatus::facility`: `(((self.0 as u32) << 3) >> (3 + 16)) as u16`.
The `u32` left shift wraps modulo `2 ^ 32` and the final `as u16` keeps the low
16 bits. -/
def NtStatus.facility (s : NtStatus) : Nat :=
  (((s.val <<< 3) % 2 ^ 32) >>> 19) % 2 ^ 16

/-- Model of `NtStatus::code`: `self.0 as u16`. -/
def NtStatus.code (s : NtStatus) : Nat :=
  s.val % 2 ^ 16

/-- Model of `NtStatusError`: a status known to be a failure, held as the raw
signed value (`NonZeroI32` in Rust; the non-zero invariant is established by
the theorems about `NtStatus.resultChecked`). -/
structure NtStatusError where
  status : Int
deriving DecidableEq

/-- The severities on which `NtStatus::result` takes the error path: `Error`
always, and `Warning` exactly when `debug_assertions` are enabled (the `debug`
flag models the build configuration). -/
def NtStatus.errPath (debug : Bool) (s : NtStatus) : Bool :=
  match s.severity with
  | Severity.Error => true
  | Severity.Warning => debug
  | _ => false

/-- Model of `NtStatus::result` with the `NonZeroI32::new` runtime check made
explicit: `none` models the `unreachable!()` branch, reached only if the value
on the error path were zero. -/
def NtStatus.resultChecked (debug : Bool) (s : NtStatus) :
    Option (Except NtStatusError NtStatus) :=
  if s.errPath debug then
    if toI32 s.val = 0 then none
    else some (Except.error ⟨toI32 s.val⟩)
  else some (Except.ok s)

/-- Model of `NtStatus::result` with the unreachable zero branch elided; it
agrees with `NtStatus.resultChecked` on every 32-bit value (proved below). -/
def NtStatus.result (debug : Bool) (s : NtStatus) : Except NtStatusError NtStatus :=
  if s.errPath debug then Except.error ⟨toI32 s.val⟩ else Except.ok s

/-! ### I/O control code model (crates/km-shared/src/ioctl.rs) -/

/-- Modelled from the spec: the `km_sys` crate's generated bindings (not part of
the published sources) define the platform transfer-method constants; the spec
fixes the transfer method as a 4-valued enum stored in the low two bits, in the
order Buffered, InDirect, OutDirect, Neither. -/
def METHOD_BUFFERED : Nat := 0

/-- Modelled from the spec: see `METHOD_BUFFERED`. -/
def METHOD_IN_DIRECT : Nat := 1

/-- Modelled from the spec: see `METHOD_BUFFERED`. -/
def METHOD_OUT_DIRECT : Nat := 2

/-- Modelled from the spec: see `METHOD_BUFFERED`. -/
def METHOD_NEITHER : Nat := 3

/-- Modelled from the spec: the access-rights field is a 2-bit flag set
(ReadData, WriteData) and the reserved "any access" value is fixed at 0 by the
platform (asserted in the source); the two flags are the two bits of the
field. -/
def FILE_ANY_ACCESS : Nat := 0

/-- Modelled from the spec: see `FILE_ANY_ACCESS`. -/
def FILE_READ_DATA : Nat := 1

/-- Modelled from the spec: see `FILE_ANY_ACCESS`. -/
def FILE_WRITE_DATA : Nat := 2

/-- Model of the `IoCtlTransferType` enum. -/
inductive IoCtlTransferType where
  | Buffered
  | InDirect
  | OutDirect
  | Neither
deriving DecidableEq

/-- Numeric value of a transfer type (the Rust `repr(u8)` discriminants, tied
to the `METHOD_*` constants). -/
def IoCtlTransferType.toRaw : IoCtlTransferType → Nat
  | .Buffered => METHOD_BUFFERED
  | .InDirect => METHOD_IN_DIRECT
  | .OutDirect => METHOD_OUT_DIRECT
  | .Neither => METHOD_NEITHER

/-- Model of `IoCtlTransferType::from_raw`; `none` models the
`panic!("raw ioctl transfertype out of bounds")` arm. -/
def IoCtlTransferType.from_raw (value : Nat) : Option IoCtlTransferType :=
  if value = METHOD_BUFFERED then some .Buffered
  else if value = METHOD_IN_DIRECT then some .InDirect
  else if value = METHOD_OUT_DIRECT then some .OutDirect
  else if value = METHOD_NEITHER then some .Neither
  else none

/-- Model of the bitflags struct `IoCtlAccess`: the raw `u8` bit set. The
bitflags invariant (only the two defined flag bits may be set) appears as the
`bits < 4` hypothesis of the theorems. -/
structure IoCtlAccess where
  bits : Nat
deriving DecidableEq

/-- Model of the generated `from_bits_truncate`: keep only the defined flag
bits (`FILE_READ_DATA ||| FILE_WRITE_DATA = 3`). -/
def IoCtlAccess.from_bits_truncate (b : Nat) : IoCtlAccess :=
  ⟨b &&& (FILE_READ_DATA ||| FILE_WRITE_DATA)⟩

/-- Model of `IoCtlAccess::any_access`: the empty flag set. -/
def IoCtlAccess.any_access : IoCtlAccess := ⟨FILE_ANY_ACCESS⟩

/-- Model of `IoControlCode(pub ULONG)`: the packed 32-bit control code. -/
structure IoControlCode where
  val : Nat
deriving DecidableEq

/-- Model of `IoControlCode::new_custom`; the `none` cases model the three
`assert!` panics on reserved ranges. Arguments are `u16` in Rust. -/
def IoControlCode.new_custom (device_type : Nat) (function : Nat)
    (method : IoCtlTransferType) (access : IoCtlAccess) : Option IoControlCode :=
  if device_type < 0x8000 then none
  else if function < 0x800 then none
  else if 0xFFF < function then none
  else
    some ⟨(device_type <<< 16) ||| (access.bits <<< 14) ||| (function <<< 2) ||| method.toRaw⟩

/-- Model of `IoControlCode::device_type`: `(self.0 >> 16) as u16`. -/
def IoControlCode.device_type (c : IoControlCode) : Nat :=
  (c.val >>> 16) % 2 ^ 16

/-- Model of `IoControlCode::function`: `((self.0 >> 2) & 0xFFF) as u16`. -/
def IoControlCode.function (c : IoControlCode) : Nat :=
  ((c.val >>> 2) &&& 0xFFF) % 2 ^ 16

/-- Model of `IoControlCode::access`:
`IoCtlAccess::from_bits_truncate(((self.0 >> 14) & 0b11) as u8)`. -/
def IoControlCode.access (c : IoControlCode) : IoCtlAccess :=
  IoCtlAccess.from_bits_truncate ((c.val >>> 14) &&& 3)

/-- Model of `IoControlCode::method`:
`IoCtlTransferType::from_raw((self.0 & 0b11) as u8)`. -/
def IoControlCode.method (c : IoControlCode) : Option IoCtlTransferType :=
  IoCtlTransferType.from_raw (c.val &&& 3)

/-! ### WDF object reference counting (crates/km/src/wdf/object.rs)

The wrapped handle itself carries no interesting state; what the claims are
about is the effect of each operation on the foreign runtime, modelled as the
runtime's reference count for the object together with the trace of
reference/dereference calls issued to it. -/

/-- One call into the runtime's reference-counting interface. -/
inductive ObjCall where
  | reference
  | dereference
deriving DecidableEq

/-- State of the foreign runtime as seen by the object layer. -/
structure ObjState where
  refCount : Int
  trace : List ObjCall
deriving DecidableEq

/-- Model of the ffi shim `object_reference_actual` (`WdfObjectReferenceActual`):
one increment, recorded in the trace. -/
def object_reference_actual (s : ObjState) : ObjState :=
  { refCount := s.refCount + 1, trace := s.trace ++ [ObjCall.reference] }

/-- Model of the ffi shim `object_dereference_actual`
(`WdfObjectDereferenceActual`): one decrement, recorded in the trace. -/
def object_dereference_actual (s : ObjState) : ObjState :=
  { refCount := s.refCount - 1, trace := s.trace ++ [ObjCall.dereference] }

/-- Model of `WdfObjectReference::to_owned`: calls
`object_reference_actual` once and wraps the same handle. -/
def WdfObjectReference.to_owned (s : ObjState) : ObjState :=
  object_reference_actual s

/-- Model of `OwnedWdfObject::from_new_raw`: wraps the raw handle in a
`WdfObjectReference` and delegates to `to_owned`. -/
def OwnedWdfObject.from_new_raw (s : ObjState) : ObjState :=
  WdfObjectReference.to_owned s

/-- Model of `impl Clone for OwnedWdfObject`: `(self.raw).to_owned()`. -/
def OwnedWdfObject.clone (s : ObjState) : ObjState :=
  WdfObjectReference.to_owned s

/-- Model of `impl Drop for OwnedWdfObject`: calls
`object_dereference_actual` once. -/
def OwnedWdfObject.drop (s : ObjState) : ObjState :=
  object_dereference_actual s

/-! ### Request buffer protocol (crates/km/src/wdf/request.rs) -/

/-- Model of `bytemuck::checked::CheckedCastError` as used by `handle_ioctl`:
either a plain pod-cast failure (size or alignment mismatch) or an invalid bit
pattern for the target type. -/
inductive CheckedCastError where
  | podCastError
  | invalidBitPattern
deriving DecidableEq

/-- Abstraction of a Rust target type for the checked casts: its size in bytes
together with the predicate telling which byte patterns of that size are valid
bit patterns for it (`CheckedBitPattern::is_valid_bit_pattern`). -/
structure RustType where
  size : Nat
  valid : List Nat → Bool

/-- Model of `bytemuck::checked::try_from_bytes`: the byte slice must have
exactly the target size and form a valid bit pattern. -/
def try_from_bytes (t : RustType) (bytes : List Nat) : Except CheckedCastError Unit :=
  if bytes.length ≠ t.size then Except.error CheckedCastError.podCastError
  else if t.valid bytes then Except.ok ()
  else Except.error CheckedCastError.invalidBitPattern

/-- Model of `bytemuck::checked::try_from_bytes_mut`: same checks as
`try_from_bytes`. -/
def try_from_bytes_mut (t : RustType) (bytes : List Nat) : Except CheckedCastError Unit :=
  try_from_bytes t bytes

/-- One call from a `Request` into the foreign runtime. -/
inductive ReqCall where
  | retrieveInputBuffer (minLen : Nat)
  | retrieveOutputBuffer (minLen : Nat)
  | setInformation (information : Nat)
deriving DecidableEq

/-- The runtime's behaviour for one request: the status and bytes its two
buffer-retrieval calls produce (the runtime is free to answer anything; the
claims hold for every such behaviour). -/
structure Kernel where
  inputStatus : NtStatus
  inputBytes : List Nat
  outputStatus : NtStatus
  outputBytes : List Nat

/-- Mutable state of one `Request` value: the manual borrow flag for the
output buffer (a `Cell<bool>` in Rust), plus the trace of runtime calls this
request has issued. -/
structure RequestState where
  output_buffer_borrowed : Bool
  trace : List ReqCall
deriving DecidableEq

/-- Model of the `RetrieveOutputBufferError` enum. -/
inductive RetrieveOutputBufferError where
  | outputBufferAlreadyBorrowed
  | ntStatus (source : NtStatusError)
deriving DecidableEq

/-- Model of the `IoCtlError` enum. -/
inductive IoCtlError where
  | outputBufferAlreadyBorrowed
  | ntStatus (source : NtStatusError)
  | cast (output_buffer : Bool) (inner : CheckedCastError)
deriving DecidableEq

/-- Model of `Request::retrieve_input_buffer`: one runtime call whose status is
converted through `NtStatus::result`; on success the input bytes are returned.
The `debug` flag models `debug_assertions` for the status conversion. -/
def Request.retrieve_input_buffer (k : Kernel) (debug : Bool)
    (minimum_required_length : Nat) (s : RequestState) :
    RequestState × Except NtStatusError (List Nat) :=
  let s1 := { s with trace := s.trace ++ [ReqCall.retrieveInputBuffer minimum_required_length] }
  match k.inputStatus.result debug with
  | Except.error e => (s1, Except.error e)
  | Except.ok _ => (s1, Except.ok k.inputBytes)

/-- Model of `Request::retrieve_output_buffer`: fails up front — without any
runtime call — while the borrow flag is set; otherwise one runtime call, and on
success the flag is set (the `OutputBuffer::new` path). -/
def Request.retrieve_output_buffer (k : Kernel) (debug : Bool)
    (minimum_required_length : Nat) (s : RequestState) :
    RequestState × Except RetrieveOutputBufferError (List Nat) :=
  if s.output_buffer_borrowed then
    (s, Except.error RetrieveOutputBufferError.outputBufferAlreadyBorrowed)
  else
    let s1 :=
      { s with trace := s.trace ++ [ReqCall.retrieveOutputBuffer minimum_required_length] }
    match k.outputStatus.result debug with
    | Except.error e => (s1, Except.error (RetrieveOutputBufferError.ntStatus e))
    | Except.ok _ => ({ s1 with output_buffer_borrowed := true }, Except.ok k.outputBytes)

/-- Model of `impl Drop for OutputBuffer`: clears the borrow flag. -/
def OutputBuffer.drop (s : RequestState) : RequestState :=
  { s with output_buffer_borrowed := false }

/-- Model of `Request::set_information`: one runtime call, recorded. -/
def Request.set_information (information : Nat) (s : RequestState) : RequestState :=
  { s with trace := s.trace ++ [ReqCall.setInformation information] }

/-- Model of `Request::handle_ioctl` for input type `i`, output type `o` and
body `f` (the body sees the raw input and output bytes; its result is returned
unchanged). The zero-sized cases skip retrieval exactly as the Rust code does;
in particular a zero-sized `o` fabricates an empty `OutputBuffer` without
touching the borrow flag. Every exit after the `OutputBuffer` exists runs its
`Drop` (clears the flag), mirroring the Rust scopes. -/
def Request.handle_ioctl {R : Type} (k : Kernel) (debug : Bool) (i o : RustType)
    (f : List Nat → List Nat → R) (s : RequestState) :
    RequestState × Except IoCtlError R :=
  let inputStep : RequestState × Except IoCtlError (List Nat) :=
    if 0 < i.size then
      match Request.retrieve_input_buffer k debug i.size s with
      | (s1, Except.ok bytes) => (s1, Except.ok bytes)
      | (s1, Except.error e) => (s1, Except.error (IoCtlError.ntStatus e))
    else (s, Except.ok [])
  match inputStep with
  | (s1, Except.error e) => (s1, Except.error e)
  | (s1, Except.ok inputBytes) =>
    match try_from_bytes i inputBytes with
    | Except.error e => (s1, Except.error (IoCtlError.cast false e))
    | Except.ok _ =>
      let outputStep : RequestState × Except IoCtlError (List Nat) :=
        if 0 < o.size then
          match Request.retrieve_output_buffer k debug o.size s1 with
          | (s2, Except.ok bytes) => (s2, Except.ok bytes)
          | (s2, Except.error RetrieveOutputBufferError.outputBufferAlreadyBorrowed) =>
            (s2, Except.error IoCtlError.outputBufferAlreadyBorrowed)
          | (s2, Except.error (RetrieveOutputBufferError.ntStatus e)) =>
            (s2, Except.error (IoCtlError.ntStatus e))
        else (s1, Except.ok [])
      match outputStep with
      | (s2, Except.error e) => (s2, Except.error e)
      | (s2, Except.ok outputBytes) =>
        match try_from_bytes_mut o outputBytes with
        | Except.error e => (OutputBuffer.drop s2, Except.error (IoCtlError.cast true e))
        | Except.ok _ =>
          let r := f inputBytes outputBytes
          let s3 := if 0 < o.size then Request.set_information o.size s2 else s2
          (OutputBuffer.drop s3, Except.ok r)

/-! ### Arithmetic helpers for the packed bit layouts -/

/-- Disjoint bitwise or is addition: oring a left-shifted field onto a value
that fits below the shift is the same as adding it. -/
theorem shiftLeft_lor_eq_add (a b k : Nat) (h : b < 2 ^ k) :
    (a <<< k) ||| b = a * 2 ^ k + b := by
  rw [Nat.shiftLeft_eq]
  rw [Nat.mul_comm a (2 ^ k), Nat.mul_comm (2 ^ k) a]
  calc a * 2 ^ k ||| b = 2 ^ k * a ||| b := by rw [Nat.mul_comm]
    _ = 2 ^ k * a + b := (Nat.mul_add_lt_is_or h a).symm
    _ = a * 2 ^ k + b := by rw [Nat.mul_comm]

/-- Masking with `0xFFF` keeps the low 12 bits. -/
theorem and_fff_eq_mod (x : Nat) : x &&& 0xFFF = x % 2 ^ 12 := by
  have h : (0xFFF : Nat) = 2 ^ 12 - 1 := by norm_num
  rw [h, Nat.and_pow_two_sub_one_eq_mod]

/-- Masking with `0b11` keeps the low 2 bits. -/
theorem and_three_eq_mod (x : Nat) : x &&& 3 = x % 4 := by
  have h : (3 : Nat) = 2 ^ 2 - 1 := by norm_num
  have h4 : (4 : Nat) = 2 ^ 2 := by norm_num
  rw [h, Nat.and_pow_two_sub_one_eq_mod, h4]

/-- Testing bit 29 via the mask `1 <<< 29`: the mask result is zero exactly
when the bit's div/mod extraction is zero. -/
theorem and_bit29 (x : Nat) : x &&& (1 <<< 29) = (x / 2 ^ 29 % 2) * 2 ^ 29 := by
  have h1 : (1 : Nat) <<< 29 = 2 ^ 29 := by rw [Nat.shiftLeft_eq, Nat.one_mul]
  rw [h1, Nat.and_two_pow, Nat.testBit_to_div_mod]
  have h2 : x / 2 ^ 29 % 2 = 0 ∨ x / 2 ^ 29 % 2 = 1 := by omega
  rcases h2 with h2 | h2 <;> rw [h2] <;> norm_num

/-! ### Facts about the NtStatus field layout -/

/-- Case analysis on the two severity bits of a 32-bit status value. -/
theorem severity_cases (s : NtStatus) (h : s.val < 2 ^ 32) :
    (s.severity = Severity.Success ∧ s.val >>> 30 = 0) ∨
    (s.severity = Severity.Information ∧ s.val >>> 30 = 1) ∨
    (s.severity = Severity.Warning ∧ s.val >>> 30 = 2) ∨
    (s.severity = Severity.Error ∧ s.val >>> 30 = 3) := by
  have ht : s.val >>> 30 = 0 ∨ s.val >>> 30 = 1 ∨ s.val >>> 30 = 2 ∨ s.val >>> 30 = 3 := by
    rw [Nat.shiftRight_eq_div_pow]; omega
  rcases ht with h0 | h1 | h2 | h3 <;> simp [NtStatus.severity, *]

/-- The numeric severity tag of a 32-bit status value is its top two bits. -/
theorem severity_toRaw_eq (s : NtStatus) (h : s.val < 2 ^ 32) :
    (NtStatus.severity s).toRaw = s.val >>> 30 := by
  rcases severity_cases s h with ⟨hs, ht⟩ | ⟨hs, ht⟩ | ⟨hs, ht⟩ | ⟨hs, ht⟩ <;>
    rw [hs, ht] <;> rfl

/-- On the error path of `result`, the top severity bits are set, so the value
is at least `2 ^ 31`. -/
theorem errPath_val_ge (debug : Bool) (s : NtStatus) (h : s.val < 2 ^ 32)
    (hE : s.errPath debug = true) : 2 ^ 31 ≤ s.val := by
  rcases severity_cases s h with ⟨hs, ht⟩ | ⟨hs, ht⟩ | ⟨hs, ht⟩ | ⟨hs, ht⟩
  · simp [NtStatus.errPath, hs] at hE
  · simp [NtStatus.errPath, hs] at hE
  · rw [Nat.shiftRight_eq_div_pow] at ht; omega
  · rw [Nat.shiftRight_eq_div_pow] at ht; omega

/-- A 32-bit pattern with its top bit set reinterprets as a negative, hence
non-zero, `i32`. -/
theorem toI32_ne_zero_of_ge (v : Nat) (h1 : 2 ^ 31 ≤ v) (h2 : v < 2 ^ 32) :
    toI32 v ≠ 0 := by
  unfold toI32
  rw [if_neg (by omega)]
  omega

/-! ### Packing arithmetic for NtStatus -/

/-- Computation of `NtStatus::new` on in-range fields, with the packed bitwise
expression rewritten as plain arithmetic on the disjoint fields. -/
theorem new_val (custom : Bool) (sev : Severity) (facility code : Nat)
    (hf : facility ≤ 0x1FFF) (hc : code < 2 ^ 16) :
    NtStatus.new custom sev facility code =
      some ⟨sev.toRaw * 2 ^ 30 + custom.toNat * 2 ^ 29 + facility * 2 ^ 16 + code⟩ := by
  have hb : custom.toNat ≤ 1 := by cases custom <;> decide
  unfold NtStatus.new
  rw [if_neg (by omega)]
  congr 1
  congr 1
  rw [Nat.lor_assoc, Nat.lor_assoc]
  rw [shiftLeft_lor_eq_add facility code 16 hc]
  rw [shiftLeft_lor_eq_add custom.toNat (facility * 2 ^ 16 + code) 29 (by norm_num at hf hc ⊢; omega)]
  rw [shiftLeft_lor_eq_add sev.toRaw _ 30 (by norm_num at hf hc ⊢; omega)]
  ring

/-- The top two bits of a packed status value recover the severity tag. -/
theorem packed_shift30 (a b c d : Nat) (ha : a < 4) (hb : b ≤ 1) (hc : c < 2 ^ 13)
    (hd : d < 2 ^ 16) : (a * 2 ^ 30 + b * 2 ^ 29 + c * 2 ^ 16 + d) >>> 30 = a := by
  rw [Nat.shiftRight_eq_div_pow]
  norm_num at hc hd ⊢
  omega

/-- Bit 29 of a packed status value recovers the custom flag bit. -/
theorem packed_bit29 (a b c d : Nat) (ha : a < 4) (hb : b ≤ 1) (hc : c < 2 ^ 13)
    (hd : d < 2 ^ 16) : (a * 2 ^ 30 + b * 2 ^ 29 + c * 2 ^ 16 + d) / 2 ^ 29 % 2 = b := by
  norm_num at hc hd ⊢
  omega

/-- The facility accessor recovers the packed 13-bit facility field. -/
theorem packed_facility (a b c d : Nat) (ha : a < 4) (hb : b ≤ 1) (hc : c < 2 ^ 13)
    (hd : d < 2 ^ 16) :
    NtStatus.facility ⟨a * 2 ^ 30 + b * 2 ^ 29 + c * 2 ^ 16 + d⟩ = c := by
  unfold NtStatus.facility
  rw [Nat.shiftLeft_eq, Nat.shiftRight_eq_div_pow]
  norm_num at hc hd ⊢
  omega

/-- The code accessor recovers the packed low 16 bits. -/
theorem packed_code (a b c d : Nat) (ha : a < 4) (hb : b ≤ 1) (hc : c < 2 ^ 13)
    (hd : d < 2 ^ 16) :
    NtStatus.code ⟨a * 2 ^ 30 + b * 2 ^ 29 + c * 2 ^ 16 + d⟩ = d := by
  unfold NtStatus.code
  norm_num at hc hd ⊢
  omega

/-- The severity accessor recovers the packed severity tag. -/
theorem packed_severity (sev : Severity) (b c d : Nat) (hb : b ≤ 1) (hc : c < 2 ^ 13)
    (hd : d < 2 ^ 16) :
    NtStatus.severity ⟨sev.toRaw * 2 ^ 30 + b * 2 ^ 29 + c * 2 ^ 16 + d⟩ = sev := by
  have ha : sev.toRaw < 4 := by cases sev <;> decide
  have h30 := packed_shift30 sev.toRaw b c d ha hb hc hd
  cases sev <;> simp only [NtStatus.severity, h30] <;> rfl

/-- The custom accessor recovers the packed custom flag. -/
theorem packed_custom (a : Severity) (custom : Bool) (c d : Nat) (hc : c < 2 ^ 13)
    (hd : d < 2 ^ 16) :
    NtStatus.custom ⟨a.toRaw * 2 ^ 30 + custom.toNat * 2 ^ 29 + c * 2 ^ 16 + d⟩ = custom := by
  have ha : a.toRaw < 4 := by cases a <;> decide
  have hb : custom.toNat ≤ 1 := by cases custom <;> decide
  unfold NtStatus.custom
  rw [and_bit29, packed_bit29 a.toRaw custom.toNat c d ha hb hc hd]
  cases custom <;> simp

/-! ### Packing arithmetic for IoControlCode -/

/-- The transfer-method discriminant is a two-bit value. -/
theorem toRaw_lt_four (m : IoCtlTransferType) : m.toRaw < 4 := by
  cases m <;> decide

/-- Decoding a raw transfer method recovers the raw value. -/
theorem from_raw_toRaw (r : Nat) (m : IoCtlTransferType)
    (h : IoCtlTransferType.from_raw r = some m) : m.toRaw = r := by
  unfold IoCtlTransferType.from_raw at h
  split_ifs at h with h0 h1 h2 h3 <;>
    first
      | (injection h with h4; rw [← h4]; simp [IoCtlTransferType.toRaw, *])
      | exact absurd h (by simp)

/-- Encoding a transfer method decodes back to it. -/
theorem from_raw_of_toRaw (m : IoCtlTransferType) :
    IoCtlTransferType.from_raw m.toRaw = some m := by
  cases m <;> rfl

/-- The packed control-code bitwise expression as plain arithmetic on its
disjoint fields. -/
theorem ioctl_pack_arith (dt fn ab mr : Nat) (h3 : fn ≤ 0xFFF) (hab : ab < 4)
    (hmr : mr < 4) :
    (dt <<< 16) ||| (ab <<< 14) ||| (fn <<< 2) ||| mr
      = dt * 2 ^ 16 + ab * 2 ^ 14 + fn * 4 + mr := by
  rw [Nat.lor_assoc, Nat.lor_assoc]
  rw [shiftLeft_lor_eq_add fn mr 2 (by omega)]
  rw [shiftLeft_lor_eq_add ab (fn * 2 ^ 2 + mr) 14 (by norm_num at h3 ⊢; omega)]
  rw [shiftLeft_lor_eq_add dt (ab * 2 ^ 14 + (fn * 2 ^ 2 + mr)) 16
    (by norm_num at h3 hab ⊢; omega)]
  ring

/-- Computation of `IoControlCode::new_custom` on in-range fields, with the
packed bitwise expression rewritten as plain arithmetic. -/
theorem ioctl_new_val (dt fn : Nat) (m : IoCtlTransferType) (acc : IoCtlAccess)
    (h1 : 0x8000 ≤ dt) (h2 : 0x800 ≤ fn) (h3 : fn ≤ 0xFFF) (hacc : acc.bits < 4) :
    IoControlCode.new_custom dt fn m acc =
      some ⟨dt * 2 ^ 16 + acc.bits * 2 ^ 14 + fn * 4 + m.toRaw⟩ := by
  have hm : m.toRaw < 4 := toRaw_lt_four m
  unfold IoControlCode.new_custom
  rw [if_neg (by omega), if_neg (by omega), if_neg (by omega)]
  rw [ioctl_pack_arith dt fn acc.bits m.toRaw h3 hacc hm]

/-- The device-type accessor recovers the packed high 16 bits. -/
theorem ioctl_packed_device_type (dt ab fn mr : Nat) (hdt : dt < 2 ^ 16) (hab : ab < 4)
    (hfn : fn ≤ 0xFFF) (hmr : mr < 4) :
    IoControlCode.device_type ⟨dt * 2 ^ 16 + ab * 2 ^ 14 + fn * 4 + mr⟩ = dt := by
  unfold IoControlCode.device_type
  rw [Nat.shiftRight_eq_div_pow]
  norm_num at hdt hfn ⊢
  omega

/-- The function accessor recovers the packed 12-bit function field. -/
theorem ioctl_packed_function (dt ab fn mr : Nat) (hdt : dt < 2 ^ 16) (hab : ab < 4)
    (hfn : fn ≤ 0xFFF) (hmr : mr < 4) :
    IoControlCode.function ⟨dt * 2 ^ 16 + ab * 2 ^ 14 + fn * 4 + mr⟩ = fn := by
  unfold IoControlCode.function
  rw [Nat.shiftRight_eq_div_pow, and_fff_eq_mod]
  norm_num at hfn ⊢
  omega

/-- The access accessor recovers the packed 2-bit access field. -/
theorem ioctl_packed_access (dt ab fn mr : Nat) (hdt : dt < 2 ^ 16) (hab : ab < 4)
    (hfn : fn ≤ 0xFFF) (hmr : mr < 4) :
    IoControlCode.access ⟨dt * 2 ^ 16 + ab * 2 ^ 14 + fn * 4 + mr⟩ = ⟨ab⟩ := by
  unfold IoControlCode.access IoCtlAccess.from_bits_truncate
  congr 1
  rw [Nat.shiftRight_eq_div_pow, and_three_eq_mod]
  have hmask : (FILE_READ_DATA ||| FILE_WRITE_DATA : Nat) = 3 := rfl
  rw [hmask, and_three_eq_mod]
  norm_num at hfn ⊢
  omega

/-- The method accessor recovers the packed 2-bit transfer method. -/
theorem ioctl_packed_method (dt ab fn mr : Nat) (hdt : dt < 2 ^ 16) (hab : ab < 4)
    (hfn : fn ≤ 0xFFF) (hmr : mr < 4) :
    (IoControlCode.method ⟨dt * 2 ^ 16 + ab * 2 ^ 14 + fn * 4 + mr⟩) =
      IoCtlTransferType.from_raw mr := by
  unfold IoControlCode.method
  congr 1
  rw [and_three_eq_mod]
  norm_num at hfn ⊢
  omega

/-! ### Field extraction as arithmetic, for the roundtrip direction -/

/-- The custom flag as the 29th bit of the value. -/
theorem custom_toNat (s : NtStatus) : (NtStatus.custom s).toNat = s.val / 2 ^ 29 % 2 := by
  unfold NtStatus.custom
  rw [and_bit29]
  have h2 : s.val / 2 ^ 29 % 2 = 0 ∨ s.val / 2 ^ 29 % 2 = 1 := by omega
  rcases h2 with h2 | h2 <;> rw [h2] <;> norm_num

/-- The facility accessor in div/mod form, on a 32-bit value. -/
theorem facility_arith (v : Nat) (h : v < 2 ^ 32) :
    NtStatus.facility ⟨v⟩ = v / 2 ^ 16 % 2 ^ 13 := by
  unfold NtStatus.facility
  rw [Nat.shiftLeft_eq, Nat.shiftRight_eq_div_pow]
  norm_num at h ⊢
  omega

/-- The facility accessor always yields an in-range 13-bit field. -/
theorem facility_le (v : Nat) (h : v < 2 ^ 32) : NtStatus.facility ⟨v⟩ ≤ 0x1FFF := by
  rw [facility_arith v h]
  norm_num
  omega

/-- The device-type accessor in div form, on a 32-bit value. -/
theorem device_type_arith (v : Nat) (h : v < 2 ^ 32) :
    IoControlCode.device_type ⟨v⟩ = v / 2 ^ 16 := by
  unfold IoControlCode.device_type
  rw [Nat.shiftRight_eq_div_pow]
  norm_num at h ⊢
  omega

/-- The function accessor in div/mod form. -/
theorem function_arith (v : Nat) :
    IoControlCode.function ⟨v⟩ = v / 4 % 2 ^ 12 := by
  unfold IoControlCode.function
  rw [Nat.shiftRight_eq_div_pow, and_fff_eq_mod]
  norm_num
  omega

/-- The access accessor in div/mod form. -/
theorem access_arith (v : Nat) :
    (IoControlCode.access ⟨v⟩).bits = v / 2 ^ 14 % 4 := by
  unfold IoControlCode.access IoCtlAccess.from_bits_truncate
  rw [Nat.shiftRight_eq_div_pow, and_three_eq_mod]
  have hmask : (FILE_READ_DATA ||| FILE_WRITE_DATA : Nat) = 3 := rfl
  rw [hmask, and_three_eq_mod]
  norm_num

/-! ### Claim theorems -/

/-- C5: `result()` returns `Ok` for Success and Information severities in all
builds; for Warning severity it returns `Ok` in non-debug builds and `Err` in
debug builds; for Error severity it returns `Err` in all builds; in particular
`from_u32(0).result()` is `Ok`. -/
theorem C5_result_by_severity (v : Nat) (debug : Bool) :
    ((NtStatus.from_u32 v).severity = Severity.Success ∨
        (NtStatus.from_u32 v).severity = Severity.Information →
      (NtStatus.from_u32 v).result debug = Except.ok (NtStatus.from_u32 v)) ∧
    ((NtStatus.from_u32 v).severity = Severity.Warning →
      (NtStatus.from_u32 v).result false = Except.ok (NtStatus.from_u32 v)) ∧
    ((NtStatus.from_u32 v).severity = Severity.Warning →
      ∃ e, (NtStatus.from_u32 v).result true = Except.error e) ∧
    ((NtStatus.from_u32 v).severity = Severity.Error →
      ∃ e, (NtStatus.from_u32 v).result debug = Except.error e) ∧
    (NtStatus.from_u32 0).result debug = Except.ok (NtStatus.from_u32 0) := by
  refine ⟨?_, ?_, ?_, ?_, ?_⟩
  · intro h
    rcases h with h | h <;> simp [NtStatus.result, NtStatus.errPath, h]
  · intro h
    simp [NtStatus.result, NtStatus.errPath, h]
  · intro h
    exact ⟨⟨toI32 (NtStatus.from_u32 v).val⟩, by simp [NtStatus.result, NtStatus.errPath, h]⟩
  · intro h
    exact ⟨⟨toI32 (NtStatus.from_u32 v).val⟩, by simp [NtStatus.result, NtStatus.errPath, h]⟩
  · rfl

/-- Witness for C5 at the concrete Warning value `0x80000000` in a debug
build. -/
theorem C5_result_by_severity_witness :
    ∃ e, (NtStatus.from_u32 0x80000000).result true = Except.error e :=
  (C5_result_by_severity 0x80000000 true).2.2.1 (by decide)

/-- C9: the error path of `result` always carries a strictly non-zero value:
the explicit `NonZeroI32` check never reaches its unreachable branch (so
`resultChecked` agrees with `result` everywhere), and every produced
`NtStatusError` holds a non-zero status. -/
theorem C9_error_nonzero (debug : Bool) (s : NtStatus) (h : s.val < 2 ^ 32) :
    s.resultChecked debug = some (s.result debug) ∧
    ∀ e, s.result debug = Except.error e → e.status ≠ 0 := by
  constructor
  · unfold NtStatus.resultChecked NtStatus.result
    by_cases hE : s.errPath debug = true
    · have hge := errPath_val_ge debug s h hE
      have hne := toI32_ne_zero_of_ge s.val hge h
      simp [hE, hne]
    · simp [hE]
  · intro e he
    unfold NtStatus.result at he
    by_cases hE : s.errPath debug = true
    · rw [if_pos hE] at he
      have hge := errPath_val_ge debug s h hE
      have hne := toI32_ne_zero_of_ge s.val hge h
      injection he with he2
      rw [← he2]
      simpa using hne
    · rw [if_neg hE] at he
      exact absurd he (by simp)

/-- Witness for C9 at the concrete Error value `0xC0000001`. -/
theorem C9_error_nonzero_witness :
    (⟨0xC0000001⟩ : NtStatus).resultChecked true =
      some ((⟨0xC0000001⟩ : NtStatus).result true) ∧
    ∀ e, (⟨0xC0000001⟩ : NtStatus).result true = Except.error e → e.status ≠ 0 :=
  C9_error_nonzero true ⟨0xC0000001⟩ (by norm_num)

/-- C7: `NtStatus::new` panics exactly when `facility > 0x1FFF`; for every
in-range facility the four accessors recover the constructor arguments. -/
theorem C7_new_fields (custom : Bool) (sev : Severity) (facility code : Nat)
    (hcode : code < 2 ^ 16) :
    (NtStatus.new custom sev facility code = none ↔ 0x1FFF < facility) ∧
    (facility ≤ 0x1FFF →
      ∃ s, NtStatus.new custom sev facility code = some s ∧
        s.custom = custom ∧ s.severity = sev ∧ s.facility = facility ∧ s.code = code) := by
  constructor
  · unfold NtStatus.new
    split_ifs with hf
    · simp [hf]
    · simp [hf]
  · intro hf
    have hc13 : facility < 2 ^ 13 := by norm_num at hf ⊢; omega
    have ha : sev.toRaw < 4 := by cases sev <;> decide
    have hb : custom.toNat ≤ 1 := by cases custom <;> decide
    refine ⟨_, new_val custom sev facility code hf hcode, ?_, ?_, ?_, ?_⟩
    · exact packed_custom sev custom facility code hc13 hcode
    · exact packed_severity sev custom.toNat facility code hb hc13 hcode
    · exact packed_facility sev.toRaw custom.toNat facility code ha hb hc13 hcode
    · exact packed_code sev.toRaw custom.toNat facility code ha hb hc13 hcode

/-- Witness for C7 at a concrete in-range field tuple. -/
theorem C7_new_fields_witness :
    ∃ s, NtStatus.new true Severity.Error 0x123 0x42 = some s ∧
      s.custom = true ∧ s.severity = Severity.Error ∧
      s.facility = 0x123 ∧ s.code = 0x42 :=
  (C7_new_fields true Severity.Error 0x123 0x42 (by norm_num)).2 (by norm_num)

/-- C4 as stated is false for the control-code codec: reconstructing
`IoControlCode(0)` from its extracted fields panics (the device type 0 and
function 0 are in the reserved ranges), instead of returning the original
value. -/
theorem C4_counterexample :
    IoControlCode.method ⟨0⟩ = some IoCtlTransferType.Buffered ∧
    IoControlCode.new_custom (IoControlCode.device_type ⟨0⟩) (IoControlCode.function ⟨0⟩)
      IoCtlTransferType.Buffered (IoControlCode.access ⟨0⟩) = none := by
  constructor
  · rfl
  · rfl

/-- C4 (amended): for every 32-bit value the status-code roundtrip
`new(custom(v), severity(v), facility(v), code(v)) = from_u32(v)` holds; the
control-code roundtrip
`new_custom(device_type(v), function(v), method(v), access(v)) = v` holds
whenever the extracted device type and function are outside the reserved
ranges that make `new_custom` panic. -/
theorem C4_roundtrip (v : Nat) (h : v < 2 ^ 32) :
    (NtStatus.new (NtStatus.from_u32 v).custom (NtStatus.from_u32 v).severity
        (NtStatus.from_u32 v).facility (NtStatus.from_u32 v).code =
      some (NtStatus.from_u32 v)) ∧
    (∀ m, IoControlCode.method ⟨v⟩ = some m →
      0x8000 ≤ IoControlCode.device_type ⟨v⟩ →
      0x800 ≤ IoControlCode.function ⟨v⟩ → IoControlCode.function ⟨v⟩ ≤ 0xFFF →
      IoControlCode.new_custom (IoControlCode.device_type ⟨v⟩) (IoControlCode.function ⟨v⟩)
        m (IoControlCode.access ⟨v⟩) = some ⟨v⟩) := by
  have hv : NtStatus.from_u32 v = ⟨v⟩ := by
    unfold NtStatus.from_u32
    congr 1
    exact Nat.mod_eq_of_lt h
  constructor
  · rw [hv]
    have hfle : NtStatus.facility ⟨v⟩ ≤ 0x1FFF := facility_le v h
    have hcode : NtStatus.code ⟨v⟩ < 2 ^ 16 := by
      unfold NtStatus.code; exact Nat.mod_lt _ (by norm_num)
    rw [new_val (NtStatus.custom ⟨v⟩) (NtStatus.severity ⟨v⟩) (NtStatus.facility ⟨v⟩)
      (NtStatus.code ⟨v⟩) hfle hcode]
    congr 1
    congr 1
    rw [severity_toRaw_eq ⟨v⟩ h, custom_toNat ⟨v⟩, facility_arith v h]
    unfold NtStatus.code
    rw [Nat.shiftRight_eq_div_pow]
    norm_num at h ⊢
    omega
  · intro m hm hdt h8 hfff
    have hmr := from_raw_toRaw (v &&& 3) m (by rw [← hm]; rfl)
    rw [and_three_eq_mod] at hmr
    have hdtv := device_type_arith v h
    have hfnv := function_arith v
    have habv := access_arith v
    have hdt16 : IoControlCode.device_type ⟨v⟩ < 2 ^ 16 := by
      rw [hdtv]; norm_num at h ⊢; omega
    have hab4 : (IoControlCode.access ⟨v⟩).bits < 4 := by
      rw [habv]; omega
    rw [ioctl_new_val (IoControlCode.device_type ⟨v⟩) (IoControlCode.function ⟨v⟩) m
      (IoControlCode.access ⟨v⟩) hdt h8 hfff hab4]
    congr 2
    rw [hdtv, hfnv, habv, hmr]
    norm_num at h ⊢
    omega

/-- Witness for C4 (amended): the status roundtrip at `0xC0001234` and the
control-code roundtrip at `0x80006006` (device type `0x8000`, read access,
function `0x801`, out-direct method). -/
theorem C4_roundtrip_witness :
    (NtStatus.new (NtStatus.from_u32 0xC0001234).custom
        (NtStatus.from_u32 0xC0001234).severity (NtStatus.from_u32 0xC0001234).facility
        (NtStatus.from_u32 0xC0001234).code = some (NtStatus.from_u32 0xC0001234)) ∧
    (IoControlCode.new_custom (IoControlCode.device_type ⟨0x80006006⟩)
        (IoControlCode.function ⟨0x80006006⟩) IoCtlTransferType.OutDirect
        (IoControlCode.access ⟨0x80006006⟩) = some ⟨0x80006006⟩) :=
  ⟨(C4_roundtrip 0xC0001234 (by norm_num)).1,
   (C4_roundtrip 0x80006006 (by norm_num)).2 IoCtlTransferType.OutDirect
     (by decide) (by decide) (by decide) (by decide)⟩

/-- C6: `new_custom` panics exactly on the reserved ranges
(`device_type < 0x8000`, `function < 0x800`, `function > 0xFFF`); on every
in-range input it succeeds, produces the documented packed value, and the four
accessors recover the exact inputs. -/
theorem C6_new_custom_correct (dt fn : Nat) (m : IoCtlTransferType) (acc : IoCtlAccess)
    (hdt16 : dt < 2 ^ 16) (hfn16 : fn < 2 ^ 16) (hacc : acc.bits < 4) :
    (IoControlCode.new_custom dt fn m acc = none ↔
      (dt < 0x8000 ∨ fn < 0x800 ∨ 0xFFF < fn)) ∧
    (0x8000 ≤ dt → 0x800 ≤ fn → fn ≤ 0xFFF →
      ∃ c, IoControlCode.new_custom dt fn m acc = some c ∧
        c.val = (dt <<< 16) ||| (acc.bits <<< 14) ||| (fn <<< 2) ||| m.toRaw ∧
        c.device_type = dt ∧ c.function = fn ∧ c.method = some m ∧ c.access = acc) := by
  obtain ⟨ab⟩ := acc
  constructor
  · unfold IoControlCode.new_custom
    split_ifs with ha hb hc <;> simp <;> omega
  · intro h1 h2 h3
    have hm4 : m.toRaw < 4 := toRaw_lt_four m
    refine ⟨_, ioctl_new_val dt fn m ⟨ab⟩ h1 h2 h3 hacc, ?_, ?_, ?_, ?_, ?_⟩
    · rw [ioctl_pack_arith dt fn ab m.toRaw h3 hacc hm4]
    · exact ioctl_packed_device_type dt ab fn m.toRaw hdt16 hacc h3 hm4
    · exact ioctl_packed_function dt ab fn m.toRaw hdt16 hacc h3 hm4
    · rw [ioctl_packed_method dt ab fn m.toRaw hdt16 hacc h3 hm4]
      exact from_raw_of_toRaw m
    · exact ioctl_packed_access dt ab fn m.toRaw hdt16 hacc h3 hm4

/-- Witness for C6 at a concrete in-range input. -/
theorem C6_new_custom_correct_witness :
    ∃ c, IoControlCode.new_custom 0x9000 0x900 IoCtlTransferType.Neither ⟨3⟩ = some c ∧
      c.val = ((0x9000 : Nat) <<< 16) ||| ((3 : Nat) <<< 14) ||| ((0x900 : Nat) <<< 2) |||
        IoCtlTransferType.Neither.toRaw ∧
      c.device_type = 0x9000 ∧ c.function = 0x900 ∧
      c.method = some IoCtlTransferType.Neither ∧ c.access = ⟨3⟩ :=
  (C6_new_custom_correct 0x9000 0x900 IoCtlTransferType.Neither ⟨3⟩ (by norm_num)
    (by norm_num) (by norm_num)).2 (by norm_num) (by norm_num) (by norm_num)

/-- C1 as stated is false: wrapping a freshly returned raw handle through
`OwnedWdfObject::from_new_raw` does perform a reference-count increment call
(the function delegates to `to_owned`), so its trace from a pristine runtime
holds one increment call, not zero. -/
theorem C1_counterexample :
    (OwnedWdfObject.from_new_raw ⟨1, []⟩).trace = [ObjCall.reference] ∧
    ¬ (OwnedWdfObject.from_new_raw ⟨1, []⟩).trace.count ObjCall.reference = 0 := by
  exact ⟨rfl, by decide⟩

/-- C1 (amended): `from_new_raw` is exactly `to_owned` on the wrapped handle,
so both paths into an Owned value perform exactly one reference-count
increment call. -/
theorem C1_from_new_raw_increments (s : ObjState) :
    OwnedWdfObject.from_new_raw s = WdfObjectReference.to_owned s ∧
    (WdfObjectReference.to_owned s).trace = s.trace ++ [ObjCall.reference] ∧
    (WdfObjectReference.to_owned s).refCount = s.refCount + 1 :=
  ⟨rfl, rfl, rfl⟩

/-- C8: cloning an Owned handle issues exactly one increment call, dropping
one issues exactly one decrement call, and cloning then dropping both clones
has the same net reference-count effect as never cloning. -/
theorem C8_clone_drop_net (s : ObjState) :
    (OwnedWdfObject.clone s).trace = s.trace ++ [ObjCall.reference] ∧
    (OwnedWdfObject.drop s).trace = s.trace ++ [ObjCall.dereference] ∧
    (OwnedWdfObject.drop (OwnedWdfObject.drop (OwnedWdfObject.clone s))).refCount =
      (OwnedWdfObject.drop s).refCount := by
  refine ⟨rfl, rfl, ?_⟩
  unfold OwnedWdfObject.drop OwnedWdfObject.clone WdfObjectReference.to_owned
    object_dereference_actual object_reference_actual
  simp

/-- C2: retrieving the output buffer while a previously returned view is still
alive fails with `OutputBufferAlreadyBorrowed` and leaves the request state
untouched (in particular no runtime call is recorded); a successful retrieval
sets the borrow flag; dropping the view clears it, after which a retrieval
succeeds again whenever the runtime reports success. -/
theorem C2_output_borrow_flag (k : Kernel) (debug : Bool) (n1 n2 : Nat)
    (s : RequestState) :
    (s.output_buffer_borrowed = true →
      Request.retrieve_output_buffer k debug n1 s =
        (s, Except.error RetrieveOutputBufferError.outputBufferAlreadyBorrowed)) ∧
    (∀ s2 bytes, Request.retrieve_output_buffer k debug n1 s = (s2, Except.ok bytes) →
      s2.output_buffer_borrowed = true) ∧
    (OutputBuffer.drop s).output_buffer_borrowed = false ∧
    (∀ st, k.outputStatus.result debug = Except.ok st →
      Request.retrieve_output_buffer k debug n2 (OutputBuffer.drop s) =
        ({ output_buffer_borrowed := true,
           trace := s.trace ++ [ReqCall.retrieveOutputBuffer n2] },
          Except.ok k.outputBytes)) := by
  refine ⟨?_, ?_, rfl, ?_⟩
  · intro hb
    simp [Request.retrieve_output_buffer, hb]
  · intro s2 bytes heq
    by_cases hb : s.output_buffer_borrowed = true
    · simp [Request.retrieve_output_buffer, hb] at heq
    · rcases hr : k.outputStatus.result debug with e | st
      · simp [Request.retrieve_output_buffer, hb, hr] at heq
      · simp only [Request.retrieve_output_buffer, hb, hr, if_neg, Bool.not_eq_true] at heq
        injection heq with h1 h2
        rw [← h1]
  · intro st hst
    simp [Request.retrieve_output_buffer, OutputBuffer.drop, hst]

/-- Witness for C2: with the buffer already borrowed the retrieval fails and
leaves the state untouched; after the drop, the retrieval succeeds against a
runtime reporting success. -/
theorem C2_output_borrow_flag_witness :
    Request.retrieve_output_buffer ⟨NtStatus.from_u32 0, [], NtStatus.from_u32 0, [7]⟩ true 4
        ⟨true, []⟩ =
      (⟨true, []⟩, Except.error RetrieveOutputBufferError.outputBufferAlreadyBorrowed) ∧
    Request.retrieve_output_buffer ⟨NtStatus.from_u32 0, [], NtStatus.from_u32 0, [7]⟩ true 4
        (OutputBuffer.drop ⟨true, []⟩) =
      ({ output_buffer_borrowed := true, trace := [ReqCall.retrieveOutputBuffer 4] },
        Except.ok [7]) :=
  ⟨(C2_output_borrow_flag ⟨NtStatus.from_u32 0, [], NtStatus.from_u32 0, [7]⟩ true 4 4
      ⟨true, []⟩).1 rfl,
   (C2_output_borrow_flag ⟨NtStatus.from_u32 0, [], NtStatus.from_u32 0, [7]⟩ true 4 4
      ⟨true, []⟩).2.2.2 (NtStatus.from_u32 0) rfl⟩

/-- C10 as stated is false: a call entered while the output buffer is already
borrowed (a live `OutputBuffer` from a direct `retrieve_output_buffer` call)
exits through the buffer-retrieval failure path with the flag still set. The
concrete run uses a zero-sized input type and a one-byte output type. -/
theorem C10_counterexample :
    (Request.handle_ioctl ⟨NtStatus.from_u32 0, [], NtStatus.from_u32 0, [0]⟩ false
        ⟨0, fun _ => true⟩ ⟨1, fun _ => true⟩ (fun _ _ => ()) ⟨true, []⟩).2 =
      Except.error IoCtlError.outputBufferAlreadyBorrowed ∧
    (Request.handle_ioctl ⟨NtStatus.from_u32 0, [], NtStatus.from_u32 0, [0]⟩ false
        ⟨0, fun _ => true⟩ ⟨1, fun _ => true⟩ (fun _ _ => ()) ⟨true, []⟩).1.output_buffer_borrowed
      = true := by
  exact ⟨rfl, rfl⟩

/-- C10 (amended): whenever `handle_ioctl` is entered with no outstanding
output-buffer borrow, the borrow flag is false again on every exit path —
success, either cast failure, or either buffer-retrieval failure — so a
subsequent `retrieve_output_buffer` is never blocked by a completed or failed
`handle_ioctl` call. -/
theorem C10_flag_clear {R : Type} (k : Kernel) (debug : Bool) (i o : RustType)
    (f : List Nat → List Nat → R) (s : RequestState)
    (h : s.output_buffer_borrowed = false) :
    (Request.handle_ioctl k debug i o f s).1.output_buffer_borrowed = false := by
  by_cases hip : 0 < i.size
  · rcases hri : k.inputStatus.result debug with e | st
    · simp [Request.handle_ioctl, Request.retrieve_input_buffer, hip, hri, h]
    · rcases hti : try_from_bytes i k.inputBytes with e | u
      · simp [Request.handle_ioctl, Request.retrieve_input_buffer, hip, hri, hti, h]
      · by_cases hop : 0 < o.size
        · rcases hro : k.outputStatus.result debug with e | st2
          · simp [Request.handle_ioctl, Request.retrieve_input_buffer,
              Request.retrieve_output_buffer, hip, hri, hti, hop, hro, h]
          · rcases hto : try_from_bytes_mut o k.outputBytes with e | u2
            · simp [Request.handle_ioctl, Request.retrieve_input_buffer,
                Request.retrieve_output_buffer, OutputBuffer.drop, hip, hri, hti, hop,
                hro, hto, h]
            · simp [Request.handle_ioctl, Request.retrieve_input_buffer,
                Request.retrieve_output_buffer, OutputBuffer.drop,
                Request.set_information, hip, hri, hti, hop, hro, hto, h]
        · rcases hto : try_from_bytes_mut o [] with e | u2
          · simp [Request.handle_ioctl, Request.retrieve_input_buffer, OutputBuffer.drop,
              hip, hri, hti, hop, hto, h]
          · simp [Request.handle_ioctl, Request.retrieve_input_buffer, OutputBuffer.drop,
              Request.set_information, hip, hri, hti, hop, hto, h]
  · rcases hti : try_from_bytes i [] with e | u
    · simp [Request.handle_ioctl, hip, hti, h]
    · by_cases hop : 0 < o.size
      · rcases hro : k.outputStatus.result debug with e | st2
        · simp [Request.handle_ioctl, Request.retrieve_output_buffer, hip, hti, hop,
            hro, h]
        · rcases hto : try_from_bytes_mut o k.outputBytes with e | u2
          · simp [Request.handle_ioctl, Request.retrieve_output_buffer, OutputBuffer.drop,
              hip, hti, hop, hro, hto, h]
          · simp [Request.handle_ioctl, Request.retrieve_output_buffer, OutputBuffer.drop,
              Request.set_information, hip, hti, hop, hro, hto, h]
      · rcases hto : try_from_bytes_mut o [] with e | u2
        · simp [Request.handle_ioctl, OutputBuffer.drop, hip, hti, hop, hto, h]
        · simp [Request.handle_ioctl, OutputBuffer.drop, Request.set_information, hip,
            hti, hop, hto, h]

/-- Witness for C10 (amended) on a concrete run entered with a clear flag. -/
theorem C10_flag_clear_witness :
    (Request.handle_ioctl ⟨NtStatus.from_u32 0, [], NtStatus.from_u32 0, [0]⟩ false
        ⟨0, fun _ => true⟩ ⟨1, fun _ => true⟩ (fun _ _ => ()) ⟨false, []⟩).1.output_buffer_borrowed
      = false :=
  C10_flag_clear ⟨NtStatus.from_u32 0, [], NtStatus.from_u32 0, [0]⟩ false
    ⟨0, fun _ => true⟩ ⟨1, fun _ => true⟩ (fun _ _ => ()) ⟨false, []⟩ rfl

/-- C3: when the input buffer is retrieved (or skipped for a zero-sized input
type) and its bytes fail the checked cast for the input type, `handle_ioctl`
returns a cast error tagged as the input buffer and the state records only the
input retrieval — in particular no completion-size call; and a
completion-size call appears in the trace only for a non-zero-sized output
type, with exactly its size, and only when the call returns the body's
result. -/
theorem C3_input_cast_and_completion {R : Type} (k : Kernel) (debug : Bool)
    (i o : RustType) (f : List Nat → List Nat → R) (s : RequestState) :
    (∀ e, (i.size = 0 ∨ ∃ st, k.inputStatus.result debug = Except.ok st) →
      try_from_bytes i (if 0 < i.size then k.inputBytes else []) = Except.error e →
      Request.handle_ioctl k debug i o f s =
        ({ s with trace := s.trace ++
            if 0 < i.size then [ReqCall.retrieveInputBuffer i.size] else [] },
          Except.error (IoCtlError.cast false e))) ∧
    (∀ n, ReqCall.setInformation n ∈ (Request.handle_ioctl k debug i o f s).1.trace →
      ReqCall.setInformation n ∈ s.trace ∨
        (n = o.size ∧ 0 < o.size ∧
          ∃ r, (Request.handle_ioctl k debug i o f s).2 = Except.ok r)) := by
  constructor
  · intro e hretr hcast
    by_cases hip : 0 < i.size
    · rw [if_pos hip] at hcast
      rcases hretr with hz | ⟨st, hst⟩
      · omega
      · simp [Request.handle_ioctl, Request.retrieve_input_buffer, hip, hst, hcast]
    · rw [if_neg hip] at hcast
      simp [Request.handle_ioctl, hip, hcast]
  · intro n hmem
    by_cases hip : 0 < i.size
    · rcases hri : k.inputStatus.result debug with e | st
      · simp [Request.handle_ioctl, Request.retrieve_input_buffer, hip, hri,
          List.mem_append] at hmem
        exact Or.inl hmem
      · rcases hti : try_from_bytes i k.inputBytes with e | u
        · simp [Request.handle_ioctl, Request.retrieve_input_buffer, hip, hri, hti,
            List.mem_append] at hmem
          exact Or.inl hmem
        · by_cases hop : 0 < o.size
          · by_cases hb : s.output_buffer_borrowed = true
            · simp [Request.handle_ioctl, Request.retrieve_input_buffer,
                Request.retrieve_output_buffer, hip, hri, hti, hop, hb,
                List.mem_append] at hmem
              exact Or.inl hmem
            · rcases hro : k.outputStatus.result debug with e | st2
              · simp [Request.handle_ioctl, Request.retrieve_input_buffer,
                  Request.retrieve_output_buffer, hip, hri, hti, hop, hb, hro,
                  List.mem_append] at hmem
                exact Or.inl hmem
              · rcases hto : try_from_bytes_mut o k.outputBytes with e | u2
                · simp [Request.handle_ioctl, Request.retrieve_input_buffer,
                    Request.retrieve_output_buffer, OutputBuffer.drop, hip, hri, hti,
                    hop, hb, hro, hto, List.mem_append] at hmem
                  exact Or.inl hmem
                · simp [Request.handle_ioctl, Request.retrieve_input_buffer,
                    Request.retrieve_output_buffer, OutputBuffer.drop,
                    Request.set_information, hip, hri, hti, hop, hb, hro, hto,
                    List.mem_append] at hmem
                  rcases hmem with hmem | hmem
                  · exact Or.inl hmem
                  · refine Or.inr ⟨hmem, hop, f k.inputBytes k.outputBytes, ?_⟩
                    simp [Request.handle_ioctl, Request.retrieve_input_buffer,
                      Request.retrieve_output_buffer, OutputBuffer.drop,
                      Request.set_information, hip, hri, hti, hop, hb, hro, hto]
          · rcases hto : try_from_bytes_mut o [] with e | u2
            · simp [Request.handle_ioctl, Request.retrieve_input_buffer,
                OutputBuffer.drop, hip, hri, hti, hop, hto, List.mem_append] at hmem
              exact Or.inl hmem
            · simp [Request.handle_ioctl, Request.retrieve_input_buffer,
                OutputBuffer.drop, Request.set_information, hip, hri, hti, hop, hto,
                List.mem_append] at hmem
              exact Or.inl hmem
    · rcases hti : try_from_bytes i [] with e | u
      · simp [Request.handle_ioctl, hip, hti, List.mem_append] at hmem
        exact Or.inl hmem
      · by_cases hop : 0 < o.size
        · by_cases hb : s.output_buffer_borrowed = true
          · simp [Request.handle_ioctl, Request.retrieve_output_buffer, hip, hti, hop,
              hb, List.mem_append] at hmem
            exact Or.inl hmem
          · rcases hro : k.outputStatus.result debug with e | st2
            · simp [Request.handle_ioctl, Request.retrieve_output_buffer, hip, hti,
                hop, hb, hro, List.mem_append] at hmem
              exact Or.inl hmem
            · rcases hto : try_from_bytes_mut o k.outputBytes with e | u2
              · simp [Request.handle_ioctl, Request.retrieve_output_buffer,
                  OutputBuffer.drop, hip, hti, hop, hb, hro, hto,
                  List.mem_append] at hmem
                exact Or.inl hmem
              · simp [Request.handle_ioctl, Request.retrieve_output_buffer,
                  OutputBuffer.drop, Request.set_information, hip, hti, hop, hb, hro,
                  hto, List.mem_append] at hmem
                rcases hmem with hmem | hmem
                · exact Or.inl hmem
                · refine Or.inr ⟨hmem, hop, f [] k.outputBytes, ?_⟩
                  simp [Request.handle_ioctl, Request.retrieve_output_buffer,
                    OutputBuffer.drop, Request.set_information, hip, hti, hop, hb,
                    hro, hto]
        · rcases hto : try_from_bytes_mut o [] with e | u2
          · simp [Request.handle_ioctl, OutputBuffer.drop, hip, hti, hop, hto,
              List.mem_append] at hmem
            exact Or.inl hmem
          · simp [Request.handle_ioctl, OutputBuffer.drop, Request.set_information,
              hip, hti, hop, hto, List.mem_append] at hmem
            exact Or.inl hmem

/-- Witness for C3: a one-byte input type whose only valid pattern is `[0]`
against a retrieved input buffer `[5]` produces the input-tagged cast error
and a state holding only the input-retrieval call. -/
theorem C3_input_cast_and_completion_witness :
    Request.handle_ioctl ⟨NtStatus.from_u32 0, [5], NtStatus.from_u32 0, []⟩ false
        ⟨1, fun b => b == [0]⟩ ⟨0, fun _ => true⟩ (fun _ _ => ()) ⟨false, []⟩ =
      ({ output_buffer_borrowed := false, trace := [ReqCall.retrieveInputBuffer 1] },
        Except.error (IoCtlError.cast false CheckedCastError.invalidBitPattern)) :=
  (C3_input_cast_and_completion ⟨NtStatus.from_u32 0, [5], NtStatus.from_u32 0, []⟩ false
      ⟨1, fun b => b == [0]⟩ ⟨0, fun _ => true⟩ (fun _ _ => ()) ⟨false, []⟩).1
    CheckedCastError.invalidBitPattern (Or.inr ⟨NtStatus.from_u32 0, rfl⟩) rfl

end Km
